import Mathlib

/-!
# A shallow embedding of the rusty-pub-sub broker

This file models, in Lean, the core of the `rusty-pub-sub` repository:

* the framing codec (64-byte ASCII length header + raw payload), from
  `src/client/src/client.rs` (`Client::send`) and the header-decoding part of
  `src/server/src/consumer.rs` (`consumer`);
* the command parser (`get_message_components` in `consumer.rs`);
* the subscription registry (`src/server/src/state.rs`: `Client` and
  `Subscription` operations over the two global maps `CLIENTS` and
  `SUBSCRIPTIONS`);
* the publish fan-out (`publish_handler` in `consumer.rs`);
* the per-connection handler loop (`consumer` in `consumer.rs`).

Strings are modelled as `List Char`, byte buffers as `List Nat` (byte
values), the two Rust `HashMap<String, HashSet<String>>` globals as
association lists whose values are duplicate-free lists, and socket I/O as
explicit event lists / write logs.  Rust panics (`unwrap()` on an `Err`)
are modelled as an explicit `panicked` outcome.
-/

/-- Strings of the Rust source are modelled as lists of characters. -/
abbrev Str := List Char

/-! ## Decimal digits and numeral bytes

`usize::to_string` / `format!("{}", n)` on the Rust side produce the ASCII
decimal representation of a number; `str::parse::<usize>` parses it back.
We model decimal digits with a fuel-based structural recursion so that all
definitions reduce inside the kernel. -/

/-- Least-significant-first decimal digits of `n`, with explicit fuel
(`natDigitsAux fuel n` is correct whenever `n ≤ fuel`). -/
def natDigitsAux : Nat → Nat → List Nat
  | 0, _ => []
  | _ + 1, 0 => []
  | fuel + 1, n + 1 => ((n + 1) % 10) :: natDigitsAux fuel ((n + 1) / 10)

/-- Least-significant-first decimal digits of `n` (empty for `0`). -/
def natDigitsLE (n : Nat) : List Nat := natDigitsAux n n

/-- The value denoted by a least-significant-first decimal digit list. -/
def valOfLE (l : List Nat) : Nat := l.foldr (fun d acc => d + 10 * acc) 0

/-- The ASCII bytes of the decimal representation of `n`, most significant
digit first — the bytes of Rust's `n.to_string()`. -/
def decimalBytes (n : Nat) : List Nat :=
  if n = 0 then [48] else (natDigitsLE n).reverse.map (fun d => d + 48)

/-- Is `b` an ASCII digit byte? -/
def isDigitByte (b : Nat) : Bool := 48 ≤ b && b ≤ 57

/-- Model of `str::parse::<usize>` on a byte string: succeeds on a nonempty
all-digit string and folds the digits left to right. -/
def parseDecimal (bs : List Nat) : Option Nat :=
  if bs ≠ [] ∧ bs.all isDigitByte then
    some (bs.foldl (fun acc b => acc * 10 + (b - 48)) 0)
  else none

/-- ASCII whitespace bytes: the bytes `< 128` satisfying Rust's
`char::is_whitespace` (TAB, LF, VT, FF, CR, SPACE). -/
def isWsByte (b : Nat) : Bool :=
  b = 9 || b = 10 || b = 11 || b = 12 || b = 13 || b = 32

/-- Model of `str::trim` on a byte string: drop whitespace from both ends. -/
def trimBytes (bs : List Nat) : List Nat :=
  ((bs.dropWhile isWsByte).reverse.dropWhile isWsByte).reverse

/-! ## Framing codec -/

/-- The 64-byte length header: the ASCII decimal representation of `n`
left-justified and padded with ASCII space (0x20) to 64 bytes.  This is the
buffer built in `Client::send` (client.rs lines 100–106) and also the
(unused) `msg_size_buffer` of `publish_handler` (consumer.rs lines 156–161). -/
def headerBytes (n : Nat) : List Nat :=
  decimalBytes n ++ List.replicate (64 - (decimalBytes n).length) 32

/-- `Client::send` (client.rs lines 96–113): write the 64-byte length header
of the payload's byte length, then the raw payload bytes, back to back. -/
def client_send (payload : List Nat) : List Nat :=
  headerBytes payload.length ++ payload

/-- The framing-decode half of the `consumer` loop (consumer.rs lines 22–54):
read a 64-byte header; if it is all zero bytes report "no message" (`none`);
otherwise convert to UTF-8 text (we model the ASCII case: every byte `< 128`),
trim, parse the length `n`, and read `n` further bytes as the payload.
`none` covers both the quiescent read and the framing-error paths, on which
the loop continues without producing a payload. -/
def decode_frame (stream : List Nat) : Option (List Nat) :=
  let buffer := stream.take 64
  if buffer.all (· = 0) then none
  else if buffer.all (· < 128) then
    match parseDecimal (trimBytes buffer) with
    | some n => some ((stream.drop 64).take n)
    | none => none
  else none

/-! ## Command parser

`get_message_components` (consumer.rs lines 78–84) splits the payload on
`" "`, takes the first part as the method and re-joins the remaining parts
with `" "` as the message. -/

/-- Model of Rust's `str::split(" ")`: the list of parts obtained by
splitting at every space (adjacent separators produce empty parts; the
result is always nonempty). -/
def splitOnSpace : Str → List Str
  | [] => [[]]
  | c :: rest =>
    if c = ' ' then [] :: splitOnSpace rest
    else
      match splitOnSpace rest with
      | [] => [[c]]
      | p :: ps => (c :: p) :: ps

/-- Model of `Vec::join(" ")`: interleave the parts with single spaces. -/
def joinSpace : List Str → Str
  | [] => []
  | [p] => p
  | p :: ps => p ++ ' ' :: joinSpace ps

/-- `get_message_components` (consumer.rs lines 78–84): the first
space-separated part is the method; the remaining parts re-joined with
`" "` are the message. -/
def get_message_components (message : Str) : Str × Str :=
  let parts := splitOnSpace message
  (parts.headD [], joinSpace parts.tail)

/-- The handlers a decoded payload can dispatch to in the `consumer` match
(consumer.rs lines 59–69). -/
inductive Handler
  | subscribeH
  | unsubscribeH
  | disconnectH
  | publishH
  | pingH
  | unknownH
deriving DecidableEq

/-- The dispatch of the `consumer` loop's `match handler.as_str()`
(consumer.rs lines 59–69): the method string is compared verbatim against
the five verbs. -/
def dispatch_verb (verb : Str) : Handler :=
  if verb = "SUBSCRIBE".data then .subscribeH
  else if verb = "UNSUBSCRIBE".data then .unsubscribeH
  else if verb = "DISCONNECT".data then .disconnectH
  else if verb = "PUBLISH".data then .publishH
  else if verb = "PING".data then .pingH
  else .unknownH

/-! ## The subscription registry (`src/server/src/state.rs`)

The two globals `CLIENTS : HashMap<String, HashSet<String>>` (client id →
set of subscribed channels) and `SUBSCRIPTIONS : HashMap<String,
HashSet<String>>` (channel → set of subscriber ids) are modelled as
association lists with duplicate-free value lists.  Every operation of the
source takes a `&TcpStream` and immediately derives the identity string via
`get_client_address`; the registry operations below take that identity
string directly. -/

/-- An association list modelling one of the `HashMap<String, HashSet<String>>`
globals. -/
abbrev RegMap := List (Str × List Str)

/-- Lookup of a key (`HashMap::get`). -/
def alookup : RegMap → Str → Option (List Str)
  | [], _ => none
  | (k, v) :: rest, key => if k = key then some v else alookup rest key

/-- `HashMap::contains_key`. -/
def containsKey (m : RegMap) (k : Str) : Bool := (alookup m k).isSome

/-- `HashMap::insert` of a fresh key (the source only inserts keys it has
just checked to be absent). -/
def insertNew (m : RegMap) (k : Str) (v : List Str) : RegMap := (k, v) :: m

/-- Apply `f` to the value stored at `k` (`HashMap::get_mut` followed by a
mutation). -/
def updateVal (m : RegMap) (k : Str) (f : List Str → List Str) : RegMap :=
  m.map fun p => if p.1 = k then (p.1, f p.2) else p

/-- `HashMap::remove`. -/
def removeKey (m : RegMap) (k : Str) : RegMap := m.filter fun p => p.1 ≠ k

/-- `HashSet::insert`: add if absent. -/
def setInsert (l : List Str) (x : Str) : List Str := if x ∈ l then l else x :: l

/-- `HashSet::remove`. -/
def setRemove (l : List Str) (x : Str) : List Str := l.filter (· ≠ x)

/-- The process-wide server state: the two registry maps. -/
structure ServerState where
  clients : RegMap
  subs : RegMap
deriving DecidableEq

/-- The state at process start: both maps empty. -/
def emptyState : ServerState := ⟨[], []⟩

/-- `Client::is_registered` (state.rs lines 38–43). -/
def is_registered (st : ServerState) (id : Str) : Bool :=
  containsKey st.clients id

/-- `Client::add_client` (state.rs lines 48–59): no-op when already
registered, otherwise insert the id with an empty channel set. -/
def add_client (st : ServerState) (id : Str) : ServerState :=
  if is_registered st id then st
  else { st with clients := insertNew st.clients id [] }

/-- `Subscription::is_channel_registered` (state.rs lines 96–98). -/
def is_channel_registered (st : ServerState) (ch : Str) : Bool :=
  containsKey st.subs ch

/-- `Subscription::add_subscription` (state.rs lines 104–119): create the
channel entry if absent, then add the client id to the channel's subscriber
set.  Note that the source mutates only `SUBSCRIPTIONS`; the client's own
channel set in `CLIENTS` is left untouched. -/
def add_subscription (st : ServerState) (id ch : Str) : ServerState :=
  let st1 :=
    if is_channel_registered st ch then st
    else { st with subs := insertNew st.subs ch [] }
  { st1 with subs := updateVal st1.subs ch (fun v => setInsert v id) }

/-- `Subscription::remove_subscription` (state.rs lines 125–138): no-op if
the channel entry is absent, otherwise remove the client id from the
channel's subscriber set (the entry itself stays). -/
def remove_subscription (st : ServerState) (id ch : Str) : ServerState :=
  if is_channel_registered st ch then
    { st with subs := updateVal st.subs ch (fun v => setRemove v id) }
  else st

/-- `Subscription::get_subscribers` (state.rs lines 142–150): a snapshot
copy of the channel's subscriber set, empty if the channel was never
created. -/
def get_subscribers (st : ServerState) (ch : Str) : List Str :=
  if is_channel_registered st ch then (alookup st.subs ch).getD [] else []

/-- The channel set recorded for a client in the `CLIENTS` map. -/
def subscribed_channels (st : ServerState) (id : Str) : List Str :=
  (alookup st.clients id).getD []

/-- `Client::remove_client` (state.rs lines 66–86): no-op if the id is not
registered; otherwise call `remove_subscription` for every channel in the
client's recorded channel set, then delete the client entry. -/
def remove_client (st : ServerState) (id : Str) : ServerState :=
  if is_registered st id then
    let chans := subscribed_channels st id
    let st1 := chans.foldl (fun acc ch => remove_subscription acc id ch) st
    { st1 with clients := removeKey st1.clients id }
  else st

/-- One registry operation of a single-threaded usage sequence. -/
inductive RegistryOp
  | register (id : Str)
  | subscribe (id ch : Str)
  | unsubscribe (id ch : Str)
  | removeClient (id : Str)

/-- Apply one registry operation. -/
def applyOp (st : ServerState) : RegistryOp → ServerState
  | .register id => add_client st id
  | .subscribe id ch => add_subscription st id ch
  | .unsubscribe id ch => remove_subscription st id ch
  | .removeClient id => remove_client st id

/-- Run a sequence of registry operations from a starting state. -/
def applyOps (ops : List RegistryOp) (st : ServerState) : ServerState :=
  ops.foldl applyOp st

/-! ## Client identity (`get_client_address`)

`get_client_address` (state.rs lines 24–26) is
`(&*stream as *const TcpStream as usize).to_string()`: the decimal string
of the memory address of the `TcpStream` object.  We model a live
`TcpStream` by its memory address together with its remote (peer) address. -/

/-- A connected TCP stream as far as identity derivation is concerned. -/
structure TcpStreamModel where
  memAddr : Nat
  peerIp : Str
  peerPort : Nat
deriving DecidableEq

/-- The decimal string of `n` (Rust's `n.to_string()`). -/
def natToStr (n : Nat) : Str := (decimalBytes n).map Char.ofNat

/-- `get_client_address` (state.rs lines 24–26): the decimal string of the
memory address of the stream object. -/
def get_client_address (stream : TcpStreamModel) : Str :=
  natToStr stream.memAddr

/-- `get_client_id` from the older revision of the state module kept in the
repository (`src/src/server/state.rs`): `format!("{}:{}", addr.ip(),
addr.port())` on the peer address — the `"ip:port"` identity the spec
describes. -/
def get_client_id (stream : TcpStreamModel) : Str :=
  stream.peerIp ++ ':' :: natToStr stream.peerPort

/-! ## Publish fan-out (`publish_handler`, consumer.rs lines 135–184)

For each subscriber in the snapshot, the handler recovers the stream from
the stored id and performs `writer.write_all(msg_bytes)` followed by
`writer.flush()`; each `Err` triggers `remove_subscription` for that
subscriber on the published channel only.  The outcomes of the two I/O
calls are modelled by the environment predicates `wOk` (the buffered write)
and `fOk` (the flush).  The write log records, per subscriber whose write
succeeded, the exact bytes placed on its socket — which the source takes
from `msg_bytes = message.as_bytes()`, never from the (constructed but
never written) 64-byte `msg_size_buffer`. -/

/-- Byte view of a model string (ASCII reading of `str::as_bytes`). -/
def strBytes (s : Str) : List Nat := s.map Char.toNat

/-- First byte index of `" "` in a string (`str::find`). -/
def findSpace : Str → Option Nat
  | [] => none
  | c :: rest => if c = ' ' then some 0 else (findSpace rest).map (· + 1)

/-- The per-subscriber delivery loop of `publish_handler` (consumer.rs
lines 165–183).  Returns the final state and the write log. -/
def fanout_loop (ch body : Str) (wOk fOk : Str → Bool) :
    List Str → ServerState → ServerState × List (Str × List Nat)
  | [], st => (st, [])
  | sub :: rest, st =>
    let writes1 : List (Str × List Nat) :=
      if wOk sub then [(sub, strBytes body)] else []
    let st1 := if wOk sub then st else remove_subscription st sub ch
    let st2 := if fOk sub then st1 else remove_subscription st1 sub ch
    let res := fanout_loop ch body wOk fOk rest st2
    (res.1, writes1 ++ res.2)

/-- `publish_handler` (consumer.rs lines 135–184): split the argument at its
first space into channel and message (a missing space is a parse error:
report and return); snapshot the channel's subscribers and return early if
there are none; otherwise build the (unused) `msg_size_buffer` and run the
delivery loop, writing only the raw message bytes. -/
def publish_handler (st : ServerState) (wOk fOk : Str → Bool)
    (message : Str) : ServerState × List (Str × List Nat) :=
  match findSpace message with
  | none => (st, [])
  | some point =>
    let channel := message.take point
    let body := message.drop (point + 1)
    let subscribers := get_subscribers st channel
    if subscribers = [] then (st, [])
    else fanout_loop channel body wOk fOk subscribers st

/-! ## The consumer loop (`consumer`, consumer.rs lines 18–75)

The handler's socket reads are modelled as a list of `ReadResult` events,
consumed one per `client.read(...)` call: first the 64-byte header read of
an iteration, then (on a parsed length) the payload read.  A read `Err`
hits the `.unwrap()` and panics the handler thread; so does a payload that
is not valid UTF-8 (`String::from_utf8(message).unwrap()`).  The payload
event carries the bytes the read left in the buffer.  `PONG` replies and
log output are not tracked; their write failures are only logged by the
source and change no state. -/

/-- Outcome of one `client.read(&mut buffer)` call. -/
inductive ReadResult
  | ok (bytes : List Nat)
  | err

/-- How a consumer run ends (relative to a finite event list). -/
inductive ConsumerOutcome
  | disconnected (st : ServerState)
  | panicked (st : ServerState)
  | blocked (st : ServerState)
deriving DecidableEq

/-- The `consumer` loop (consumer.rs lines 18–75) for the connection whose
identity string is `id`, driven by a finite list of read events.  When the
events run out the loop would block on the next read (`blocked`). -/
def consumer (wOk fOk : Str → Bool) (id : Str) :
    ServerState → List ReadResult → ConsumerOutcome
  | st, [] => .blocked st
  | st, .err :: _ => .panicked st
  | st, .ok buffer :: rest =>
    if (buffer.take 64).all (· = 0) then consumer wOk fOk id st rest
    else
      match
        (if (buffer.take 64).all (· < 128) then
          parseDecimal (trimBytes (buffer.take 64))
        else none) with
      | none => consumer wOk fOk id st rest
      | some _len =>
        match rest with
        | [] => .blocked st
        | .err :: _ => .panicked st
        | .ok msgBytes :: rest' =>
          if msgBytes.all (· < 128) then
            let message : Str := msgBytes.map Char.ofNat
            let comps := get_message_components message
            match dispatch_verb comps.1 with
            | .subscribeH =>
              consumer wOk fOk id (add_subscription st id comps.2) rest'
            | .unsubscribeH =>
              consumer wOk fOk id (remove_subscription st id comps.2) rest'
            | .disconnectH => .disconnected (remove_client st id)
            | .publishH =>
              consumer wOk fOk id (publish_handler st wOk fOk comps.2).1 rest'
            | .pingH => consumer wOk fOk id st rest'
            | .unknownH => consumer wOk fOk id st rest'
          else .panicked st

/-! ### Arithmetic facts about the digit model -/

theorem valOfLE_natDigitsAux (fuel : Nat) :
    ∀ n, n ≤ fuel → valOfLE (natDigitsAux fuel n) = n := by
  induction fuel with
  | zero => intro n hn; interval_cases n; rfl
  | succ fuel ih =>
    intro n hn
    match n with
    | 0 => rfl
    | m + 1 =>
      have hdiv : (m + 1) / 10 ≤ fuel := by
        have := Nat.div_lt_self (Nat.succ_pos m) (by norm_num : 1 < 10)
        omega
      simp only [natDigitsAux, valOfLE, List.foldr]
      have := ih ((m + 1) / 10) hdiv
      simp only [valOfLE] at this
      rw [this]
      exact Nat.mod_add_div (m + 1) 10

theorem natDigitsAux_lt_ten (fuel : Nat) :
    ∀ n d, d ∈ natDigitsAux fuel n → d < 10 := by
  induction fuel with
  | zero => intro n d hd; simp [natDigitsAux] at hd
  | succ fuel ih =>
    intro n d hd
    match n with
    | 0 => simp [natDigitsAux] at hd
    | m + 1 =>
      simp only [natDigitsAux, List.mem_cons] at hd
      rcases hd with h | h
      · subst h; exact Nat.mod_lt _ (by norm_num)
      · exact ih _ _ h

theorem natDigitsAux_length (fuel : Nat) :
    ∀ n k, n < 10 ^ k → (natDigitsAux fuel n).length ≤ k := by
  induction fuel with
  | zero => intro n k _; simp [natDigitsAux]
  | succ fuel ih =>
    intro n k hn
    match n with
    | 0 => simp [natDigitsAux]
    | m + 1 =>
      match k with
      | 0 => simp at hn
      | j + 1 =>
        simp only [natDigitsAux, List.length_cons]
        have hdiv : (m + 1) / 10 < 10 ^ j := by
          rw [Nat.div_lt_iff_lt_mul (by norm_num : 0 < 10)]
          calc m + 1 < 10 ^ (j + 1) := hn
            _ = 10 ^ j * 10 := by ring
        have := ih ((m + 1) / 10) j hdiv
        omega

theorem natDigitsLE_ne_nil {n : Nat} (hn : n ≠ 0) : natDigitsLE n ≠ [] := by
  match n with
  | 0 => exact absurd rfl hn
  | m + 1 => simp [natDigitsLE, natDigitsAux]

theorem decimalBytes_digits {n : Nat} :
    ∀ b ∈ decimalBytes n, 48 ≤ b ∧ b ≤ 57 := by
  intro b hb
  unfold decimalBytes at hb
  split at hb
  · simp at hb; omega
  · simp only [List.mem_map, List.mem_reverse] at hb
    obtain ⟨d, hd, rfl⟩ := hb
    have := natDigitsAux_lt_ten n n d hd
    omega

theorem decimalBytes_ne_nil (n : Nat) : decimalBytes n ≠ [] := by
  unfold decimalBytes
  split
  · simp
  · next h =>
    have := natDigitsLE_ne_nil h
    simp [this]

theorem decimalBytes_length_le {n k : Nat} (hk : 1 ≤ k) (hn : n < 10 ^ k) :
    (decimalBytes n).length ≤ k := by
  unfold decimalBytes
  split
  · simpa using hk
  · simp only [List.length_map, List.length_reverse]
    exact natDigitsAux_length n n k hn

theorem foldl_digits_reverse (f : Nat → Nat → Nat)
    (hf : ∀ a d, f a d = a * 10 + d) :
    ∀ (L : List Nat) (a : Nat),
      L.reverse.foldl f a = a * 10 ^ L.length + valOfLE L := by
  intro L
  induction L with
  | nil => intro a; simp [valOfLE]
  | cons d T ih =>
    intro a
    simp only [List.reverse_cons, List.foldl_append, List.foldl_cons,
      List.foldl_nil, ih a, hf, valOfLE, List.foldr]
    have : valOfLE T = T.foldr (fun d acc => d + 10 * acc) 0 := rfl
    rw [← this]
    simp only [List.length_cons, pow_succ]
    ring

/-- Parsing the decimal byte string of `n` recovers `n`. -/
theorem parseDecimal_decimalBytes (n : Nat) :
    parseDecimal (decimalBytes n) = some n := by
  have hne := decimalBytes_ne_nil n
  have hdig : (decimalBytes n).all isDigitByte = true := by
    simp only [List.all_eq_true]
    intro b hb
    have := decimalBytes_digits b hb
    simp [isDigitByte]; omega
  unfold parseDecimal
  rw [if_pos ⟨hne, hdig⟩]
  congr 1
  unfold decimalBytes
  split
  · next h => subst h; rfl
  · next h =>
    rw [List.foldl_map]
    have := foldl_digits_reverse
      (fun a d => a * 10 + (d + 48 - 48))
      (fun a d => by show a * 10 + (d + 48 - 48) = a * 10 + d; omega)
      (natDigitsLE n) 0
    simp only at this
    rw [this]
    simp only [Nat.zero_mul, Nat.zero_add]
    exact valOfLE_natDigitsAux n n (Nat.le_refl n)

/-! ### Trimming the header -/

theorem dropWhile_eq_self_of_all_false {p : Nat → Bool} {l : List Nat}
    (h : ∀ x ∈ l, p x = false) : List.dropWhile p l = l := by
  cases l with
  | nil => rfl
  | cons c l' =>
    rw [List.dropWhile_cons, if_neg]
    simp [h c (List.mem_cons_self c l')]

theorem dropWhile_append_of_ne_nil {p : Nat → Bool} {l : List Nat}
    (hl : l ≠ []) (h : ∀ x ∈ l, p x = false) (r : List Nat) :
    List.dropWhile p (l ++ r) = l ++ r := by
  cases l with
  | nil => exact absurd rfl hl
  | cons c l' =>
    rw [List.cons_append, List.dropWhile_cons, if_neg]
    simp [h c (List.mem_cons_self c l')]

theorem dropWhile_append_of_all_true {p : Nat → Bool} {l : List Nat}
    (h : ∀ x ∈ l, p x = true) (r : List Nat) :
    List.dropWhile p (l ++ r) = List.dropWhile p r := by
  induction l with
  | nil => rfl
  | cons c l' ih =>
    rw [List.cons_append, List.dropWhile_cons,
      if_pos (h c (List.mem_cons_self c l'))]
    exact ih fun x hx => h x (List.mem_cons_of_mem c hx)

theorem decimalBytes_not_ws {n : Nat} :
    ∀ x ∈ decimalBytes n, isWsByte x = false := by
  intro x hx
  have := decimalBytes_digits x hx
  simp only [isWsByte, Bool.or_eq_false_iff, decide_eq_false_iff_not]
  omega

/-- Trimming a decimal numeral padded on the right with spaces recovers the
numeral. -/
theorem trimBytes_pad (n k : Nat) :
    trimBytes (decimalBytes n ++ List.replicate k 32) = decimalBytes n := by
  unfold trimBytes
  rw [dropWhile_append_of_ne_nil (decimalBytes_ne_nil n) decimalBytes_not_ws,
    List.reverse_append, List.reverse_replicate,
    dropWhile_append_of_all_true (by intro x hx; simp at hx; simp [hx, isWsByte]),
    dropWhile_eq_self_of_all_false (by
      intro x hx
      exact decimalBytes_not_ws x (List.mem_reverse.mp hx)),
    List.reverse_reverse]

/-! ### The round-trip theorem (claim C7) -/

theorem headerBytes_length {n : Nat} (hn : n < 10 ^ 62) :
    (headerBytes n).length = 64 := by
  have h := @decimalBytes_length_le n 62 (by norm_num) hn
  simp only [headerBytes, List.length_append, List.length_replicate]
  omega

theorem headerBytes_not_all_zero (n : Nat) :
    (headerBytes n).all (· = 0) = false := by
  rcases List.exists_mem_of_ne_nil _ (decimalBytes_ne_nil n) with ⟨b, hb⟩
  have hd := decimalBytes_digits b hb
  have hmem : b ∈ headerBytes n := by
    simp only [headerBytes, List.mem_append]
    exact Or.inl hb
  rw [List.all_eq_false]
  exact ⟨b, hmem, by simp; omega⟩

theorem headerBytes_all_ascii (n : Nat) :
    (headerBytes n).all (· < 128) = true := by
  simp only [List.all_eq_true, headerBytes, List.mem_append]
  intro b hb
  rcases hb with hb | hb
  · have := decimalBytes_digits b hb
    simp; omega
  · simp only [List.mem_replicate] at hb
    simp [hb.2]

/-- **C7.** Encoding a payload of byte length `N < 10^62` with the 64-byte
space-padded ASCII decimal header (`Client::send`) and decoding the result
with the consumer's framing decoder yields the original payload. -/
theorem send_decode_roundtrip (payload : List Nat)
    (hlen : payload.length < 10 ^ 62) :
    decode_frame (client_send payload) = some payload := by
  have hdlen := @decimalBytes_length_le payload.length 62 (by norm_num) hlen
  have hheader : (headerBytes payload.length).length = 64 :=
    headerBytes_length hlen
  unfold decode_frame client_send
  rw [List.take_left' hheader, List.drop_left' hheader]
  simp only [headerBytes_not_all_zero, headerBytes_all_ascii, if_false, if_true]
  have htrim : trimBytes (headerBytes payload.length)
      = decimalBytes payload.length := trimBytes_pad _ _
  rw [htrim, parseDecimal_decimalBytes]
  simp [List.take_length]

/-! ### Parser lemmas -/

theorem splitOnSpace_ne_nil (s : Str) : splitOnSpace s ≠ [] := by
  cases s with
  | nil => simp [splitOnSpace]
  | cons c rest =>
    unfold splitOnSpace
    split
    · simp
    · split <;> simp

theorem splitOnSpace_no_space {p : Str} (h : ' ' ∉ p) :
    splitOnSpace p = [p] := by
  induction p with
  | nil => rfl
  | cons c rest ih =>
    unfold splitOnSpace
    rw [if_neg (by intro hc; exact h (hc ▸ List.mem_cons_self c rest))]
    rw [ih (fun hm => h (List.mem_cons_of_mem c hm))]

theorem splitOnSpace_append {v : Str} (hv : ' ' ∉ v) (r : Str) :
    splitOnSpace (v ++ ' ' :: r) = v :: splitOnSpace r := by
  induction v with
  | nil => simp [splitOnSpace]
  | cons c v' ih =>
    have hc : c ≠ ' ' := fun hc => hv (hc ▸ List.mem_cons_self c v')
    have hv' : ' ' ∉ v' := fun hm => hv (List.mem_cons_of_mem c hm)
    rw [List.cons_append]
    rw [splitOnSpace, if_neg hc, ih hv']

theorem joinSpace_splitOnSpace (s : Str) :
    joinSpace (splitOnSpace s) = s := by
  induction s with
  | nil => rfl
  | cons c rest ih =>
    unfold splitOnSpace
    split
    · next hc =>
      subst hc
      rcases hsplit : splitOnSpace rest with _ | ⟨p, ps⟩
      · exact absurd hsplit (splitOnSpace_ne_nil rest)
      · rw [← hsplit]
        show joinSpace ([] :: splitOnSpace rest) = ' ' :: rest
        rw [hsplit]
        show ([] : Str) ++ ' ' :: joinSpace (p :: ps) = ' ' :: rest
        rw [List.nil_append, ← hsplit, ih]
    · rcases hsplit : splitOnSpace rest with _ | ⟨p, ps⟩
      · exact absurd hsplit (splitOnSpace_ne_nil rest)
      · rw [hsplit] at ih
        cases ps with
        | nil => show c :: p = c :: rest; simpa using ih
        | cons q qs =>
          show (c :: p) ++ ' ' :: joinSpace (q :: qs) = c :: rest
          have h2 : p ++ ' ' :: joinSpace (q :: qs) = rest := by
            simpa using ih
          rw [List.cons_append, h2]

/-- On a payload of the shape `verb ++ " " ++ rest` with a space-free verb,
`get_message_components` returns the verb and `rest` unchanged. -/
theorem get_message_components_split {v : Str} (hv : ' ' ∉ v) (r : Str) :
    get_message_components (v ++ ' ' :: r) = (v, r) := by
  unfold get_message_components
  rw [splitOnSpace_append hv]
  simp only [List.headD_cons, List.tail_cons]
  rw [joinSpace_splitOnSpace]

/-- On a payload containing no space, the method is the whole payload and
the message is empty. -/
theorem get_message_components_no_space {p : Str} (h : ' ' ∉ p) :
    get_message_components p = (p, []) := by
  unfold get_message_components
  rw [splitOnSpace_no_space h]
  rfl

/-! ### Registry map lemmas -/

theorem alookup_updateVal (m : RegMap) (k : Str) (f : List Str → List Str)
    (k' : Str) :
    alookup (updateVal m k f) k' =
      if k = k' then (alookup m k').map f else alookup m k' := by
  induction m with
  | nil => simp only [updateVal, List.map_nil, alookup, Option.map_none']; split <;> rfl
  | cons p rest ih =>
    obtain ⟨a, b⟩ := p
    show alookup ((if a = k then (a, f b) else (a, b)) :: updateVal rest k f) k'
        = _
    by_cases hak : a = k
    · rw [if_pos hak]
      subst hak
      by_cases hkk : a = k'
      · subst hkk
        simp [alookup, ih]
      · simp [alookup, hkk, ih]
    · rw [if_neg hak]
      by_cases hkk : k = k'
      · subst hkk
        simp [alookup, hak, ih]
      · simp [alookup, ih, hkk]

theorem containsKey_updateVal (m : RegMap) (k : Str) (f : List Str → List Str)
    (k' : Str) : containsKey (updateVal m k f) k' = containsKey m k' := by
  unfold containsKey
  rw [alookup_updateVal]
  split
  · cases alookup m k' <;> rfl
  · rfl

theorem containsKey_insertNew (m : RegMap) (k : Str) (v : List Str)
    (k' : Str) (h : containsKey m k' = true) :
    containsKey (insertNew m k v) k' = true := by
  unfold containsKey insertNew alookup
  split
  · rfl
  · exact h

/-! ### Channel entries survive every registry operation -/

theorem channel_add_client (st : ServerState) (id ch : Str) :
    is_channel_registered (add_client st id) ch = is_channel_registered st ch := by
  unfold add_client
  split <;> rfl

theorem channel_add_subscription (st : ServerState) (id ch ch' : Str)
    (h : is_channel_registered st ch' = true) :
    is_channel_registered (add_subscription st id ch) ch' = true := by
  unfold add_subscription is_channel_registered
  rw [containsKey_updateVal]
  split
  · exact h
  · exact containsKey_insertNew _ _ _ _ h

theorem channel_remove_subscription (st : ServerState) (id ch ch' : Str) :
    is_channel_registered (remove_subscription st id ch) ch'
      = is_channel_registered st ch' := by
  unfold remove_subscription
  split
  · unfold is_channel_registered
    exact containsKey_updateVal _ _ _ _
  · rfl

theorem channel_fold_remove (id : Str) (chans : List Str) :
    ∀ (st : ServerState) (ch' : Str),
      is_channel_registered
        (chans.foldl (fun acc ch => remove_subscription acc id ch) st) ch'
      = is_channel_registered st ch' := by
  induction chans with
  | nil => intro st ch'; rfl
  | cons c cs ih =>
    intro st ch'
    rw [List.foldl_cons, ih, channel_remove_subscription]

theorem channel_remove_client (st : ServerState) (id ch' : Str) :
    is_channel_registered (remove_client st id) ch'
      = is_channel_registered st ch' := by
  unfold remove_client
  split
  · exact channel_fold_remove id _ st ch'
  · rfl

theorem channel_applyOp (st : ServerState) (op : RegistryOp) (ch : Str)
    (h : is_channel_registered st ch = true) :
    is_channel_registered (applyOp st op) ch = true := by
  cases op with
  | register id => rw [applyOp, channel_add_client]; exact h
  | subscribe id c => exact channel_add_subscription st id c ch h
  | unsubscribe id c => rw [applyOp, channel_remove_subscription]; exact h
  | removeClient id => rw [applyOp, channel_remove_client]; exact h

/-- **C9.** Once a channel entry exists in the registry (it is created
implicitly by the first subscription), no sequence of registry operations —
register, subscribe, unsubscribe or removeClient — ever deletes it, even
when its subscriber set becomes empty. -/
theorem channel_never_deleted (ops : List RegistryOp) (st : ServerState)
    (ch : Str) (h : is_channel_registered st ch = true) :
    is_channel_registered (applyOps ops st) ch = true := by
  induction ops generalizing st with
  | nil => exact h
  | cons op rest ih => exact ih _ (channel_applyOp st op ch h)

/-- Witness for `channel_never_deleted`: the channel `"a"` survives its
only subscriber unsubscribing and then disconnecting. -/
theorem channel_never_deleted_witness :
    is_channel_registered
      (add_subscription (add_client emptyState "1".data) "1".data "a".data)
      "a".data = true ∧
    is_channel_registered
      (applyOps
        [RegistryOp.unsubscribe "1".data "a".data,
          RegistryOp.removeClient "1".data]
        (add_subscription (add_client emptyState "1".data) "1".data "a".data))
      "a".data = true :=
  ⟨by decide,
    channel_never_deleted _ _ _ (by decide)⟩

/-! ### The cross-map invariant fails (claims C1 and C2)

`Subscription::add_subscription` mutates only the `SUBSCRIPTIONS` map: the
channel is never added to the client's channel set in `CLIENTS`.
Consequently the two directional maps disagree right after a subscribe, and
`Client::remove_client` — which cascades over the client's recorded (and
therefore always empty) channel set — removes no subscriptions. -/

/-- **C1.** Evaluating the code on the sequence `registerClient "c"`;
`subscribe "c" "ch"` (single-threaded, from the empty registry): the
channel's subscriber set gains `"c"`, but the client's subscribed-channel
set stays empty, so `ch ∈ c.subscribedChannels ⇔ c.id ∈ subscribersOf(ch)`
is violated — `subscribe` does not add the channel to the client's set. -/
theorem subscribe_breaks_invariant :
    "c".data ∈ get_subscribers
      (applyOps [RegistryOp.register "c".data,
        RegistryOp.subscribe "c".data "ch".data] emptyState) "ch".data ∧
    subscribed_channels
      (applyOps [RegistryOp.register "c".data,
        RegistryOp.subscribe "c".data "ch".data] emptyState) "c".data = [] ∧
    ¬(("ch".data ∈ subscribed_channels
        (applyOps [RegistryOp.register "c".data,
          RegistryOp.subscribe "c".data "ch".data] emptyState) "c".data) ↔
      ("c".data ∈ get_subscribers
        (applyOps [RegistryOp.register "c".data,
          RegistryOp.subscribe "c".data "ch".data] emptyState) "ch".data)) := by
  refine ⟨by decide, by decide, ?_⟩
  intro hiff
  have := hiff.mpr (by decide)
  revert this
  decide

/-- **C2.** Evaluating the code on the claim's scenario: after registering
`"c"`, subscribing it to `"a"` and `"b"`, and calling `removeClient "c"`,
the client entry is deleted but `"c"` is still in the subscriber sets of
both channels — the cascade iterates the client's recorded channel set,
which `subscribe` never populated.  (`removeClient` of an unregistered id
is a no-op, as the claim says; the cascade part is what fails.) -/
theorem remove_client_cascade_fails :
    is_registered
      (applyOps [RegistryOp.register "c".data,
        RegistryOp.subscribe "c".data "a".data,
        RegistryOp.subscribe "c".data "b".data,
        RegistryOp.removeClient "c".data] emptyState) "c".data = false ∧
    "c".data ∈ get_subscribers
      (applyOps [RegistryOp.register "c".data,
        RegistryOp.subscribe "c".data "a".data,
        RegistryOp.subscribe "c".data "b".data,
        RegistryOp.removeClient "c".data] emptyState) "a".data ∧
    "c".data ∈ get_subscribers
      (applyOps [RegistryOp.register "c".data,
        RegistryOp.subscribe "c".data "a".data,
        RegistryOp.subscribe "c".data "b".data,
        RegistryOp.removeClient "c".data] emptyState) "b".data ∧
    remove_client emptyState "zzz".data = emptyState := by
  refine ⟨by decide, by decide, by decide, by decide⟩

/-! ### Fan-out lemmas (claims C5 and C6) -/

theorem findSpace_append {ch : Str} (hch : ' ' ∉ ch) (body : Str) :
    findSpace (ch ++ ' ' :: body) = some ch.length := by
  induction ch with
  | nil => simp [findSpace]
  | cons c cs ih =>
    have hc : c ≠ ' ' := fun h => hch (h ▸ List.mem_cons_self c cs)
    have hcs : ' ' ∉ cs := fun h => hch (List.mem_cons_of_mem c h)
    rw [List.cons_append, findSpace, if_neg hc, ih hcs]
    rfl

/-- On a well-formed `PUBLISH` argument `channel ++ " " ++ body` (with a
space-free channel), `publish_handler` resolves the split and runs the
delivery loop over the subscriber snapshot. -/
theorem publish_handler_split {ch : Str} (hch : ' ' ∉ ch) (body : Str)
    (st : ServerState) (wOk fOk : Str → Bool) :
    publish_handler st wOk fOk (ch ++ ' ' :: body)
      = if get_subscribers st ch = [] then (st, [])
        else fanout_loop ch body wOk fOk (get_subscribers st ch) st := by
  unfold publish_handler
  rw [findSpace_append hch]
  have htake : (ch ++ ' ' :: body).take ch.length = ch := List.take_left ch _
  have hdrop : (ch ++ ' ' :: body).drop (ch.length + 1) = body := by
    have : ch ++ ' ' :: body = (ch ++ [' ']) ++ body := by simp
    rw [this, List.drop_left']
    simp
  simp only [htake, hdrop]

theorem remove_subscription_clients (st : ServerState) (id ch : Str) :
    (remove_subscription st id ch).clients = st.clients := by
  unfold remove_subscription
  split <;> rfl

theorem fanout_loop_clients (ch body : Str) (wOk fOk : Str → Bool) :
    ∀ (subs : List Str) (st : ServerState),
      (fanout_loop ch body wOk fOk subs st).1.clients = st.clients := by
  intro subs
  induction subs with
  | nil => intro st; rfl
  | cons sub rest ih =>
    intro st
    show (fanout_loop ch body wOk fOk rest _).1.clients = st.clients
    rw [ih]
    split
    · split
      · rfl
      · rw [remove_subscription_clients]
    · rw [remove_subscription_clients]
      split
      · rfl
      · rw [remove_subscription_clients]

theorem get_subscribers_eq (st : ServerState) (ch : Str) :
    get_subscribers st ch = (alookup st.subs ch).getD [] := by
  unfold get_subscribers is_channel_registered containsKey
  rcases h : alookup st.subs ch with _ | v <;> simp [h]

theorem mem_get_subscribers_remove {st : ServerState} {y ch' ch x : Str}
    (hx : x ∈ get_subscribers (remove_subscription st y ch') ch) :
    x ∈ get_subscribers st ch := by
  unfold remove_subscription at hx
  split at hx
  · rw [get_subscribers_eq] at hx
    rw [get_subscribers_eq]
    have : ({ st with subs := updateVal st.subs ch' fun v => setRemove v y }
        : ServerState).subs = updateVal st.subs ch' fun v => setRemove v y := rfl
    rw [this, alookup_updateVal] at hx
    by_cases hcc : ch' = ch
    · rw [if_pos hcc] at hx
      rcases h : alookup st.subs ch with _ | v <;> rw [h] at hx
      · simp at hx
      · simp only [Option.map_some', Option.getD_some] at hx
        simpa using List.mem_of_mem_filter hx
    · rwa [if_neg hcc] at hx
  · exact hx

theorem not_mem_remove_self (st : ServerState) (y ch : Str) :
    y ∉ get_subscribers (remove_subscription st y ch) ch := by
  unfold remove_subscription
  split
  · rw [get_subscribers_eq]
    show y ∉ (alookup (updateVal st.subs ch fun v => setRemove v y) ch).getD []
    rw [alookup_updateVal, if_pos rfl]
    rcases h : alookup st.subs ch with _ | v
    · simp
    · simp only [Option.map_some', Option.getD_some]
      intro hy
      have := List.of_mem_filter hy
      simp at this
  · next hreg =>
    rw [get_subscribers_eq]
    unfold is_channel_registered containsKey at hreg
    rcases h : alookup st.subs ch with _ | v
    · simp
    · rw [h] at hreg
      simp at hreg

theorem fanout_loop_not_mem (ch body : Str) (wOk fOk : Str → Bool) (y : Str) :
    ∀ (subs : List Str) (st : ServerState),
      y ∉ get_subscribers st ch →
      y ∉ get_subscribers (fanout_loop ch body wOk fOk subs st).1 ch := by
  intro subs
  induction subs with
  | nil => intro st h; exact h
  | cons sub rest ih =>
    intro st h
    show y ∉ get_subscribers (fanout_loop ch body wOk fOk rest _).1 ch
    apply ih
    intro hy
    apply h
    rcases hw : wOk sub with _ | _ <;> rcases hf : fOk sub with _ | _ <;>
      simp only [hw, hf, Bool.false_eq_true, if_true, if_false] at hy
    · exact mem_get_subscribers_remove (mem_get_subscribers_remove hy)
    · exact mem_get_subscribers_remove hy
    · exact mem_get_subscribers_remove hy
    · exact hy

theorem fanout_loop_removes (ch body : Str) (wOk fOk : Str → Bool) {s2 : Str}
    (hw2 : wOk s2 = false) :
    ∀ (subs : List Str) (st : ServerState), s2 ∈ subs →
      s2 ∉ get_subscribers (fanout_loop ch body wOk fOk subs st).1 ch := by
  intro subs
  induction subs with
  | nil => intro st h; exact absurd h (List.not_mem_nil s2)
  | cons sub rest ih =>
    intro st hmem
    by_cases hrest : s2 ∈ rest
    · exact ih _ hrest
    · have hsub : sub = s2 := by
        rcases List.mem_cons.mp hmem with h | h
        · exact h.symm
        · exact absurd h hrest
      rw [hsub]
      show s2 ∉ get_subscribers (fanout_loop ch body wOk fOk rest _).1 ch
      apply fanout_loop_not_mem
      simp only [hw2, Bool.false_eq_true, if_false]
      split
      · exact not_mem_remove_self st s2 ch
      · exact not_mem_remove_self _ s2 ch

theorem fanout_loop_delivers (ch body : Str) (wOk fOk : Str → Bool)
    {s1 : Str} (hw1 : wOk s1 = true) :
    ∀ (subs : List Str) (st : ServerState), s1 ∈ subs →
      (s1, strBytes body) ∈ (fanout_loop ch body wOk fOk subs st).2 := by
  intro subs
  induction subs with
  | nil => intro st h; exact absurd h (List.not_mem_nil s1)
  | cons sub rest ih =>
    intro st hmem
    show (s1, strBytes body) ∈
      (if wOk sub = true then [(sub, strBytes body)] else [])
        ++ (fanout_loop ch body wOk fOk rest _).2
    rw [List.mem_append]
    rcases List.mem_cons.mp hmem with h | h
    · subst h
      rw [hw1]
      exact Or.inl (List.mem_singleton.mpr rfl)
    · exact Or.inr (ih _ h)

theorem fanout_loop_writes_raw (ch body : Str) (wOk fOk : Str → Bool) :
    ∀ (subs : List Str) (st : ServerState),
      ∀ p ∈ (fanout_loop ch body wOk fOk subs st).2, p.2 = strBytes body := by
  intro subs
  induction subs with
  | nil => intro st p hp; exact absurd hp (List.not_mem_nil p)
  | cons sub rest ih =>
    intro st p hp
    replace hp : p ∈ (if wOk sub = true then [(sub, strBytes body)] else [])
        ++ (fanout_loop ch body wOk fOk rest _).2 := hp
    rw [List.mem_append] at hp
    rcases hp with hp | hp
    · split at hp
      · rw [List.mem_singleton.mp hp]
      · exact absurd hp (List.not_mem_nil p)
    · exact ih _ p hp

theorem client_send_ne_raw (bs : List Nat) : client_send bs ≠ bs := by
  intro h
  have hlen := congrArg List.length h
  have hD : 0 < (decimalBytes bs.length).length :=
    List.length_pos.mpr (decimalBytes_ne_nil _)
  simp only [client_send, headerBytes, List.length_append,
    List.length_replicate] at hlen
  omega

/-- **C5.** Fan-out under partial failure: if the published channel's
snapshot contains subscribers `s1` (whose write and flush succeed) and `s2`
(whose write fails), then `s1` still receives the raw message bytes, `s2`
is no longer in the channel's subscriber set afterwards, and the `CLIENTS`
map is untouched — a failed delivery write is a per-channel membership
correction, never a registry-wide client removal, and it does not stop
delivery to the remaining subscribers. -/
theorem publish_partial_failure {st : ServerState} {ch body s1 s2 : Str}
    {wOk fOk : Str → Bool} (hch : ' ' ∉ ch)
    (h1 : s1 ∈ get_subscribers st ch) (h2 : s2 ∈ get_subscribers st ch)
    (hw1 : wOk s1 = true) (_hf1 : fOk s1 = true) (hw2 : wOk s2 = false) :
    (s1, strBytes body) ∈ (publish_handler st wOk fOk (ch ++ ' ' :: body)).2 ∧
    s2 ∉ get_subscribers (publish_handler st wOk fOk (ch ++ ' ' :: body)).1 ch ∧
    (publish_handler st wOk fOk (ch ++ ' ' :: body)).1.clients = st.clients := by
  have hne : get_subscribers st ch ≠ [] := by
    intro h
    rw [h] at h1
    exact absurd h1 (List.not_mem_nil s1)
  rw [publish_handler_split hch, if_neg hne]
  exact ⟨fanout_loop_delivers ch body wOk fOk hw1 _ st h1,
    fanout_loop_removes ch body wOk fOk hw2 _ st h2,
    fanout_loop_clients ch body wOk fOk _ st⟩

/-- Witness for `publish_partial_failure`: two subscribers of `"room1"`,
the write to `"2"` fails, the write to `"1"` succeeds. -/
theorem publish_partial_failure_witness :
    (' ' ∉ "room1".data) ∧
    "1".data ∈ get_subscribers
      (add_subscription (add_subscription emptyState "1".data "room1".data)
        "2".data "room1".data) "room1".data ∧
    "2".data ∈ get_subscribers
      (add_subscription (add_subscription emptyState "1".data "room1".data)
        "2".data "room1".data) "room1".data ∧
    (fun s => s == "1".data) "1".data = true ∧
    (fun _ : Str => true) "1".data = true ∧
    (fun s => s == "1".data) "2".data = false ∧
    (("1".data, strBytes "hello\n".data) ∈
      (publish_handler
        (add_subscription (add_subscription emptyState "1".data "room1".data)
          "2".data "room1".data)
        (fun s => s == "1".data) (fun _ => true)
        ("room1".data ++ ' ' :: "hello\n".data)).2 ∧
    "2".data ∉ get_subscribers
      (publish_handler
        (add_subscription (add_subscription emptyState "1".data "room1".data)
          "2".data "room1".data)
        (fun s => s == "1".data) (fun _ => true)
        ("room1".data ++ ' ' :: "hello\n".data)).1 "room1".data ∧
    (publish_handler
      (add_subscription (add_subscription emptyState "1".data "room1".data)
        "2".data "room1".data)
      (fun s => s == "1".data) (fun _ => true)
      ("room1".data ++ ' ' :: "hello\n".data)).1.clients =
      (add_subscription (add_subscription emptyState "1".data "room1".data)
        "2".data "room1".data).clients) :=
  ⟨by decide, by decide, by decide, by decide, by decide, by decide,
    publish_partial_failure (by decide) (by decide) (by decide)
      (by decide) (by decide) (by decide)⟩

/-- **C6.** Fan-out writes are unframed: every byte string placed on a
subscriber's socket by `publish_handler` is exactly the raw message bytes
(in particular it is not the 64-byte-header framing of those bytes), and a
publish to a channel with no subscribers — including a channel that has
never been created — returns with no writes and no state change. -/
theorem publish_writes_unframed {st : ServerState} {ch body : Str}
    {wOk fOk : Str → Bool} (hch : ' ' ∉ ch) :
    (∀ p ∈ (publish_handler st wOk fOk (ch ++ ' ' :: body)).2,
        p.2 = strBytes body ∧ p.2 ≠ client_send (strBytes body)) ∧
    (get_subscribers st ch = [] →
        publish_handler st wOk fOk (ch ++ ' ' :: body) = (st, [])) := by
  constructor
  · intro p hp
    rw [publish_handler_split hch] at hp
    by_cases hsubs : get_subscribers st ch = []
    · rw [if_pos hsubs] at hp
      exact absurd hp (List.not_mem_nil p)
    · rw [if_neg hsubs] at hp
      have hr := fanout_loop_writes_raw ch body wOk fOk _ st p hp
      refine ⟨hr, ?_⟩
      rw [hr]
      exact fun h => client_send_ne_raw _ h.symm
  · intro hsubs
    rw [publish_handler_split hch, if_pos hsubs]

/-- Witness for `publish_writes_unframed`: a delivered write to the only
subscriber of `"room1"` carries the raw bytes, and a publish to the
never-created channel `"nochan"` is a no-op. -/
theorem publish_writes_unframed_witness :
    (' ' ∉ "room1".data) ∧
    (("1".data, strBytes "hi".data).2 = strBytes "hi".data ∧
      ("1".data, strBytes "hi".data).2 ≠ client_send (strBytes "hi".data)) ∧
    (' ' ∉ "nochan".data) ∧
    get_subscribers emptyState "nochan".data = [] ∧
    publish_handler emptyState (fun _ => true) (fun _ => true)
      ("nochan".data ++ ' ' :: "hi".data) = (emptyState, []) :=
  ⟨by decide,
    (@publish_writes_unframed
      (add_subscription emptyState "1".data "room1".data)
      "room1".data "hi".data (fun _ => true) (fun _ => true)
      (by decide)).1 ("1".data, strBytes "hi".data) (by decide),
    by decide, by decide,
    (@publish_writes_unframed emptyState "nochan".data "hi".data
      (fun _ => true) (fun _ => true) (by decide)).2 (by decide)⟩

/-! ### Connection-error handling (claim C3) -/

/-- **C3 (counterexample).** A read error on the handler's own socket does
not run the DISCONNECT cleanup path: the handler panics (the `.unwrap()` on
`client.read`) and the client is still registered afterwards, whereas an
explicit DISCONNECT frame ends in `disconnected` with the client removed. -/
theorem read_error_no_cleanup_counterexample :
    consumer (fun _ => true) (fun _ => true) "140000".data
      (add_client emptyState "140000".data) [ReadResult.err]
      = ConsumerOutcome.panicked (add_client emptyState "140000".data) ∧
    is_registered (add_client emptyState "140000".data) "140000".data
      = true ∧
    consumer (fun _ => true) (fun _ => true) "140000".data
      (add_client emptyState "140000".data)
      [ReadResult.ok (headerBytes 10),
        ReadResult.ok (strBytes "DISCONNECT".data)]
      = ConsumerOutcome.disconnected
          (remove_client (add_client emptyState "140000".data)
            "140000".data) ∧
    is_registered
      (remove_client (add_client emptyState "140000".data) "140000".data)
      "140000".data = false := by
  refine ⟨by decide, by decide, by decide, by decide⟩

/-- **C3 (amended).** On an unrecoverable read error on its own socket the
handler panics immediately — terminating that connection's thread with the
registry unchanged, so `removeClient` is *not* called; the `removeClient`
cleanup runs only on an explicit DISCONNECT command. -/
theorem read_error_panics_without_cleanup :
    (∀ (w f : Str → Bool) (id : Str) (st : ServerState)
        (evs : List ReadResult),
      consumer w f id st (ReadResult.err :: evs)
        = ConsumerOutcome.panicked st) ∧
    (∀ (w f : Str → Bool) (id : Str) (st : ServerState)
        (evs : List ReadResult),
      consumer w f id st
        (ReadResult.ok (headerBytes 10)
          :: ReadResult.ok (strBytes "DISCONNECT".data) :: evs)
        = ConsumerOutcome.disconnected (remove_client st id)) :=
  ⟨fun _ _ _ _ _ => rfl, fun _ _ _ _ _ => rfl⟩

/-! ### Client identity (claim C4) -/

theorem char_toNat_ofNat_digit {b : Nat} (h1 : 48 ≤ b) (h2 : b ≤ 57) :
    (Char.ofNat b).toNat = b := by
  interval_cases b <;> decide

theorem strBytes_natToStr (n : Nat) : strBytes (natToStr n) = decimalBytes n := by
  unfold strBytes natToStr
  rw [List.map_map]
  have hmem : ∀ b ∈ decimalBytes n, (Char.toNat ∘ Char.ofNat) b = b := by
    intro b hb
    have := decimalBytes_digits b hb
    exact char_toNat_ofNat_digit this.1 this.2
  rw [List.map_congr_left hmem]
  exact List.map_id' (decimalBytes n)

theorem natToStr_injective {n1 n2 : Nat} (h : natToStr n1 = natToStr n2) :
    n1 = n2 := by
  have hb : decimalBytes n1 = decimalBytes n2 := by
    rw [← strBytes_natToStr n1, ← strBytes_natToStr n2, h]
  have hp := congrArg parseDecimal hb
  rw [parseDecimal_decimalBytes, parseDecimal_decimalBytes] at hp
  exact Option.some_injective _ hp

/-- **C4 (counterexample).** The identity under which a connection is
stored is the decimal string of the `TcpStream` object's memory address,
not the `"ip:port"` string of its remote address: a stream at address
`140000` with remote address `127.0.0.1:8080` is stored under `"140000"`. -/
theorem client_identity_counterexample :
    get_client_address ⟨140000, "127.0.0.1".data, 8080⟩ = "140000".data ∧
    get_client_id ⟨140000, "127.0.0.1".data, 8080⟩ = "127.0.0.1:8080".data ∧
    get_client_address ⟨140000, "127.0.0.1".data, 8080⟩
      ≠ get_client_id ⟨140000, "127.0.0.1".data, 8080⟩ := by
  refine ⟨by decide, by decide, by decide⟩

/-- **C4 (amended).** The stored identity string is derived from the
stream object's transient memory location and from nothing else: it is
independent of the remote address, and it determines the memory address
exactly (the fan-out code parses it back into a pointer). -/
theorem client_identity_from_memory_address :
    (∀ (a : Nat) (ip1 : Str) (p1 : Nat) (ip2 : Str) (p2 : Nat),
      get_client_address ⟨a, ip1, p1⟩ = get_client_address ⟨a, ip2, p2⟩) ∧
    (∀ s t : TcpStreamModel,
      get_client_address s = get_client_address t → s.memAddr = t.memAddr) :=
  ⟨fun _ _ _ _ _ => rfl, fun _ _ h => natToStr_injective h⟩

/-- Witness for `client_identity_from_memory_address`: two streams at the
same address with different peers get the same identity, hence the same
recovered address. -/
theorem client_identity_from_memory_address_witness :
    (⟨7, "x".data, 1⟩ : TcpStreamModel).memAddr
      = (⟨7, "y".data, 2⟩ : TcpStreamModel).memAddr :=
  client_identity_from_memory_address.2 ⟨7, "x".data, 1⟩ ⟨7, "y".data, 2⟩
    (client_identity_from_memory_address.1 7 "x".data 1 "y".data 2)

/-! ### Verb dispatch is case-sensitive (claim C8) -/

/-- **C8 (counterexample).** The dispatcher compares the verb without any
uppercasing: the payload `"ping"` (which splits into verb `"ping"` and
empty rest) dispatches to the unknown-command arm, not to the handler that
`"PING"` reaches. -/
theorem dispatch_not_case_insensitive_counterexample :
    get_message_components "ping".data = ("ping".data, []) ∧
    dispatch_verb "ping".data = Handler.unknownH ∧
    dispatch_verb "PING".data = Handler.pingH ∧
    dispatch_verb "ping".data ≠ dispatch_verb "PING".data := by
  refine ⟨by decide, by decide, by decide, by decide⟩

/-- **C8 (amended).** The dispatcher splits the payload on the first space
into a verb and a rest; the verb is compared case-sensitively (verbatim,
with no uppercasing), so `"ping"` is an unknown command while `"PING"`
dispatches to the ping handler; the rest is passed on unchanged — not
further trimmed — preserving any embedded spaces. -/
theorem dispatch_case_sensitive_rest_preserved :
    (∀ (v r : Str), ' ' ∉ v →
      get_message_components (v ++ ' ' :: r) = (v, r)) ∧
    dispatch_verb "PING".data = Handler.pingH ∧
    dispatch_verb "ping".data = Handler.unknownH ∧
    (∀ r : Str,
      get_message_components ("PUBLISH".data ++ ' ' :: r)
        = ("PUBLISH".data, r)) :=
  ⟨fun _ r hv => get_message_components_split hv r,
    by decide, by decide,
    fun r => get_message_components_split (by decide) r⟩

/-- Witness for `dispatch_case_sensitive_rest_preserved`: a rest with an
embedded space survives the split unchanged. -/
theorem dispatch_case_sensitive_rest_preserved_witness :
    get_message_components ("PING".data ++ ' ' :: "a b".data)
      = ("PING".data, "a b".data) :=
  dispatch_case_sensitive_rest_preserved.1 "PING".data "a b".data (by decide)

/-! ### Bare SUBSCRIBE/UNSUBSCRIBE and the empty-string channel (claim C10) -/

theorem add_subscription_registers (st : ServerState) (id ch : Str) :
    is_channel_registered (add_subscription st id ch) ch = true ∧
    id ∈ get_subscribers (add_subscription st id ch) ch := by
  unfold add_subscription
  by_cases hreg : is_channel_registered st ch = true
  · rw [if_pos hreg]
    constructor
    · unfold is_channel_registered
      rw [containsKey_updateVal]
      exact hreg
    · rw [get_subscribers_eq]
      show id ∈ (alookup (updateVal st.subs ch fun v => setInsert v id)
        ch).getD []
      rw [alookup_updateVal, if_pos rfl]
      unfold is_channel_registered containsKey at hreg
      rcases h : alookup st.subs ch with _ | v
      · rw [h] at hreg
        simp at hreg
      · simp only [Option.map_some', Option.getD_some]
        unfold setInsert
        split
        · assumption
        · exact List.mem_cons_self id v
  · rw [if_neg hreg]
    constructor
    · unfold is_channel_registered
      rw [containsKey_updateVal]
      unfold containsKey insertNew alookup
      simp
    · rw [get_subscribers_eq]
      show id ∈ (alookup
        (updateVal (insertNew st.subs ch []) ch fun v => setInsert v id)
        ch).getD []
      rw [alookup_updateVal, if_pos rfl]
      unfold insertNew alookup
      simp [setInsert]

/-- **C10.** A payload with no space parses into the whole payload as the
verb and the empty string as the rest; a bare `SUBSCRIBE` frame is
therefore dispatched (not rejected) and subscribes the connection to the
channel named by the empty string — creating a registry entry for channel
`""`, into whose subscriber set the client id goes exactly as for any
other channel — and a bare `UNSUBSCRIBE` likewise unsubscribes from
channel `""`. -/
theorem bare_subscribe_empty_channel :
    (∀ p : Str, ' ' ∉ p → get_message_components p = (p, [])) ∧
    (∀ (w f : Str → Bool) (id : Str) (st : ServerState)
        (evs : List ReadResult),
      consumer w f id st
        (ReadResult.ok (headerBytes 9)
          :: ReadResult.ok (strBytes "SUBSCRIBE".data) :: evs)
        = consumer w f id (add_subscription st id []) evs) ∧
    (∀ (w f : Str → Bool) (id : Str) (st : ServerState)
        (evs : List ReadResult),
      consumer w f id st
        (ReadResult.ok (headerBytes 11)
          :: ReadResult.ok (strBytes "UNSUBSCRIBE".data) :: evs)
        = consumer w f id (remove_subscription st id []) evs) ∧
    (∀ (st : ServerState) (id : Str),
      is_channel_registered (add_subscription st id []) [] = true ∧
      id ∈ get_subscribers (add_subscription st id []) []) :=
  ⟨fun _ hp => get_message_components_no_space hp,
    fun _ _ _ _ _ => rfl,
    fun _ _ _ _ _ => rfl,
    fun st id => add_subscription_registers st id []⟩

/-- Witness for `bare_subscribe_empty_channel`: the bare `"SUBSCRIBE"`
payload and a concrete client subscribing to the empty-string channel. -/
theorem bare_subscribe_empty_channel_witness :
    get_message_components "SUBSCRIBE".data = ("SUBSCRIBE".data, []) ∧
    consumer (fun _ => true) (fun _ => true) "9".data emptyState
      [ReadResult.ok (headerBytes 9),
        ReadResult.ok (strBytes "SUBSCRIBE".data)]
      = ConsumerOutcome.blocked (add_subscription emptyState "9".data []) ∧
    is_channel_registered (add_subscription emptyState "9".data []) []
      = true ∧
    "9".data ∈ get_subscribers (add_subscription emptyState "9".data []) [] :=
  ⟨bare_subscribe_empty_channel.1 "SUBSCRIBE".data (by decide),
    (bare_subscribe_empty_channel.2.1 (fun _ => true) (fun _ => true)
      "9".data emptyState []).trans rfl,
    (bare_subscribe_empty_channel.2.2.2 emptyState "9".data).1,
    (bare_subscribe_empty_channel.2.2.2 emptyState "9".data).2⟩

/-- Witness for `send_decode_roundtrip`: the two-byte payload `"Hi"`. -/
theorem send_decode_roundtrip_witness :
    ([72, 105] : List Nat).length < 10 ^ 62 ∧
    decode_frame (client_send [72, 105]) = some [72, 105] :=
  ⟨by decide, send_decode_roundtrip [72, 105] (by decide)⟩
